import Mathlib

/-!
Verification of the resize/layout computation pipeline of the
`image-converter` web application.

The embedding below translates the two computational components of the
repository into Lean:

* the Dimension Resolver (`calculateTargetDimensions` in
  `src/components/image-results.tsx`, duplicated inside
  `processImageInBrowser`), which turns a source width/height and a
  resize mode into target pixel dimensions;
* the Grid Layout Planner (the layout portion of `generatePDF` in
  `src/components/pdf-generator.tsx`), which places `itemCount` images
  on pages of a `rows × cols` grid;
* the progress reporting traces of `processImageInBrowser` and
  `downloadAllAsZip`, and the filename sanitisation of the PDF
  generator.

JavaScript numbers are modelled by exact rationals (`ℚ`); `Math.round`
becomes `jsRound`, `Math.floor` becomes `Int.floor`. Integer-valued
quantities (pixel counts, indices) are `ℕ` or `ℤ`.
-/

/-- JavaScript `Math.round`: round half toward positive infinity,
i.e. `⌊x + 1/2⌋`.  Defined through `Rat.floor` so that it evaluates by
kernel reduction. -/
def jsRound (q : ℚ) : ℤ := (q + 1/2).floor

/-- The resize modes of the image converter
(`type ResizeMode = "none" | "dimensions" | "percentage" | "preset"`). -/
inductive ResizeMode
  | none
  | dimensions
  | percentage
  | preset
  deriving DecidableEq

/-- The preset size names
(`type PresetSize = "small" | "medium" | "large" | "hd" | "fullhd" | "4k"`). -/
inductive PresetSize
  | small
  | medium
  | large
  | hd
  | fullhd
  | fourk
  deriving DecidableEq

/-- The `PRESET_SIZES` lookup table of `image-results.tsx`. -/
def presetSizes : PresetSize → ℕ × ℕ
  | .small => (640, 480)
  | .medium => (1024, 768)
  | .large => (1600, 1200)
  | .hd => (1280, 720)
  | .fullhd => (1920, 1080)
  | .fourk => (3840, 2160)

/-- The `ResizeDimensions` record of the UI state.  A field equal to `0`
is falsy in JavaScript and plays the role of an absent target axis. -/
structure ResizeDimensions where
  width : ℕ
  height : ℕ
  deriving DecidableEq

/-- The Dimension Resolver, translated from `calculateTargetDimensions`
in `src/components/image-results.tsx` (lines 382–432; the body of
`processImageInBrowser`, lines 680–723, is the same computation on
`img.width`/`img.height`).  `w`/`h` are the source dimensions
(`img.width`, `img.height`), `rd` the requested explicit dimensions,
`pct` the percentage scale, `ps` the preset name and `aspect` the
`maintainAspectRatio` flag.  Returns the computed
`(targetWidth, targetHeight)`. -/
def calculateTargetDimensions (w h : ℕ) (mode : ResizeMode)
    (rd : ResizeDimensions) (pct : ℚ) (ps : PresetSize) (aspect : Bool) :
    ℤ × ℤ :=
  match mode with
  | .none => ((w : ℤ), (h : ℤ))
  | .dimensions =>
      -- targetWidth = resizeDimensions.width || img.width  (0 is falsy)
      let tW : ℤ := if rd.width = 0 then (w : ℤ) else (rd.width : ℤ)
      let tH : ℤ := if rd.height = 0 then (h : ℤ) else (rd.height : ℤ)
      if aspect then
        if rd.width ≠ 0 ∧ rd.height = 0 then
          -- targetHeight = Math.round((img.height / img.width) * targetWidth)
          (tW, jsRound (((h : ℚ) / (w : ℚ)) * (tW : ℚ)))
        else if rd.width = 0 ∧ rd.height ≠ 0 then
          -- targetWidth = Math.round((img.width / img.height) * targetHeight)
          (jsRound (((w : ℚ) / (h : ℚ)) * (tH : ℚ)), tH)
        else
          -- ratio = Math.min(targetWidth/img.width, targetHeight/img.height)
          let ratio : ℚ := min ((tW : ℚ) / (w : ℚ)) ((tH : ℚ) / (h : ℚ))
          (jsRound ((w : ℚ) * ratio), jsRound ((h : ℚ) * ratio))
      else
        (tW, tH)
  | .percentage =>
      (jsRound (((w : ℚ) * pct) / 100), jsRound (((h : ℚ) * pct) / 100))
  | .preset =>
      let p := presetSizes ps
      if aspect then
        let ratio : ℚ := min ((p.1 : ℚ) / (w : ℚ)) ((p.2 : ℚ) / (h : ℚ))
        (jsRound ((w : ℚ) * ratio), jsRound ((h : ℚ) * ratio))
      else
        ((p.1 : ℤ), (p.2 : ℤ))

/-! ## Grid Layout Planner (`src/components/pdf-generator.tsx`) -/

/-- The image layout choices of the PDF generator
(`type ImageLayout = "1" | "2" | "4" | "custom"`). -/
inductive ImageLayout
  | one
  | two
  | four
  | custom
  deriving DecidableEq

/-- The `onChange` handler of the custom rows/cols number inputs:
`setCustomRows(Number.parseInt(e.target.value) || 1)`.  The argument is
the result of `Number.parseInt` (`none` models `NaN`); `0` and `NaN` are
falsy, so they are replaced by `1`; every other integer — including
negative ones and ones above the input's `max="5"` attribute — is stored
unchanged. -/
def customDimFromInput : Option ℤ → ℤ
  | Option.none => 1
  | Option.some n => if n = 0 then 1 else n

/-- The `switch (imageLayout)` of `generatePDF` (lines 130–155): resolves
the layout to `(rows, cols)`.  The custom branch uses the stored
`customRows`/`customCols` values with no clamping. -/
def resolveLayout (layout : ImageLayout) (customRows customCols : ℤ) : ℤ × ℤ :=
  match layout with
  | .one => (1, 1)
  | .two => (2, 1)
  | .four => (2, 2)
  | .custom => (customRows, customCols)

/-- One entry of the placement plan: for item `itemIndex`, its page,
grid cell and the top-left corner `(x, y)` of its bounding box. -/
structure Placement where
  itemIndex : ℕ
  pageIndex : ℕ
  row : ℕ
  col : ℕ
  x : ℚ
  y : ℚ
  deriving DecidableEq

/-- The accumulated state of the `generatePDF` loop: the number of pages
of the PDF document so far (jsPDF starts with one page) and the
placements already produced. -/
structure PDFState where
  pages : ℕ
  placements : List Placement
  deriving DecidableEq

/-- Page/margin geometry handed to the planner: `margin`, the reserved
title band (`titleSpace = title ? 20 : 0`) and the page width/height in
millimetres (already swapped for landscape orientation). -/
structure PageGeometry where
  margin : ℚ
  titleSpace : ℚ
  pageWidth : ℚ
  pageHeight : ℚ

/-- One iteration of the `for (let i = 0; i < totalImages; i++)` loop of
`generatePDF` (lines 174–218), restricted to its layout computations:
page/row/column indices, the `addPage` call when a new page starts, and
the `(x, y)` drawing position. -/
def generatePDFStep (g : PageGeometry) (rows cols : ℕ) (s : PDFState) (i : ℕ) :
    PDFState :=
  let imagesPerPage := rows * cols
  let imageWidth := (g.pageWidth - 2 * g.margin) / (cols : ℚ)
  let imageHeight := (g.pageHeight - 2 * g.margin - g.titleSpace) / (rows : ℚ)
  let pageIndex := i / imagesPerPage
  let imageIndexOnPage := i % imagesPerPage
  let rowIndex := imageIndexOnPage / cols
  let colIndex := imageIndexOnPage % cols
  -- if (imageIndexOnPage === 0 && i > 0) pdf.addPage()
  let pages := if imageIndexOnPage = 0 ∧ 0 < i then s.pages + 1 else s.pages
  let x := g.margin + (colIndex : ℚ) * imageWidth
  let y := (g.margin + g.titleSpace) + (rowIndex : ℚ) * imageHeight
  ⟨pages, s.placements ++ [⟨i, pageIndex, rowIndex, colIndex, x, y⟩]⟩

/-- The whole placement loop of `generatePDF` for `itemCount` images on a
`rows × cols` grid, starting from the fresh one-page jsPDF document. -/
def generatePDFRun (g : PageGeometry) (rows cols itemCount : ℕ) : PDFState :=
  (List.range itemCount).foldl (generatePDFStep g rows cols) ⟨1, []⟩

/-- The closed-form placement the specification predicts for item `i`. -/
def placementFormula (g : PageGeometry) (rows cols i : ℕ) : Placement :=
  let imagesPerPage := rows * cols
  ⟨i, i / imagesPerPage, (i % imagesPerPage) / cols, (i % imagesPerPage) % cols,
    g.margin + ((i % imagesPerPage) % cols : ℕ) * ((g.pageWidth - 2 * g.margin) / (cols : ℚ)),
    (g.margin + g.titleSpace) +
      ((i % imagesPerPage) / cols : ℕ) * ((g.pageHeight - 2 * g.margin - g.titleSpace) / (rows : ℚ))⟩

/-! ## Filename sanitisation (`src/components/pdf-generator.tsx`) -/

/-- The characters removed by `sanitizeFilename`
(the regex character class `[/\\?%*:|"<>]`). -/
def invalidFilenameChars : List Char := ['/', '\\', '?', '%', '*', ':', '|', '"', '<', '>']

/-- Per-character action of `name.replace(/[/\\?%*:|"<>]/g, "-")`. -/
def sanitizeChar (c : Char) : Char :=
  if c ∈ invalidFilenameChars then '-' else c

/-- The `sanitizeFilename` helper of `pdf-generator.tsx` (lines 235–238):
every invalid character is replaced by `-`. -/
def sanitizeFilename (s : String) : String :=
  ⟨s.data.map sanitizeChar⟩

/-- JavaScript whitespace characters stripped by `String.prototype.trim`
(the ASCII ones; the full set also has Unicode space separators, which
behave identically for this analysis). -/
def isJsWhitespace (c : Char) : Bool :=
  c = ' ' || c = '\t' || c = '\n' || c = '\r' || c = '\x0b' || c = '\x0c'

/-- JavaScript `String.prototype.trim`: strip whitespace from both
ends. -/
def jsTrim (s : String) : String :=
  ⟨((s.data.dropWhile isJsWhitespace).reverse.dropWhile isJsWhitespace).reverse⟩

/-- The filename actually passed to `pdf.save` (lines 220–222):
`pdfFilename.trim() ? sanitizeFilename(pdfFilename.trim()) : "photo-collection"`
(an empty string is falsy), with `.pdf` appended. -/
def pdfSaveName (pdfFilename : String) : String :=
  if jsTrim pdfFilename = "" then "photo-collection" ++ ".pdf"
  else sanitizeFilename (jsTrim pdfFilename) ++ ".pdf"

/-! ## Progress traces

`processImageInBrowser` (`image-results.tsx`, lines 642–827) calls its
`onProgress` sink with a fixed prelude of milestones, then once per
completed format, then `100`.  `downloadAllAsZip` (lines 105–177) calls
`setDownloadProgress` with `0`, then once per file added, then forwards
JSZip's `metadata.percent` during `generateAsync`. -/

/-- The per-format progress report of `processImageInBrowser`:
`Math.floor(60 + (completedFormats / totalFormats) * 40)` with
`completedFormats = k`, `totalFormats = n`. -/
def formatProgress (n k : ℕ) : ℤ := ((60 : ℚ) + ((k : ℚ) / (n : ℚ)) * 40).floor

/-- The sequence of values `processImageInBrowser` hands to `onProgress`
for one image: `5`; the HEIC conversion milestones `10`, `20`, `30` (cut
short at the point where `import`/`heic2any` throws, modelled by taking
the first `heicSteps + 1` of them) or plain `30` for non-HEIC files;
`40`, `50`, `60`; one report per processed format; and the final
`100`. -/
def processTrace (isHeic : Bool) (heicSteps : ℕ) (n : ℕ) : List ℤ :=
  [5] ++ (if isHeic then [10, 20, 30].take (heicSteps + 1) else [30])
    ++ [40, 50, 60]
    ++ (List.range n).map (fun k => formatProgress n (k + 1))
    ++ [100]

/-- The file-adding phase reports of `downloadAllAsZip`:
`Math.round((processedFiles / totalFiles) * 100)` after each of the `n`
files. -/
def zipAddTrace (n : ℕ) : List ℤ :=
  (List.range n).map (fun (k : ℕ) => jsRound ((((k : ℚ) + 1) / (n : ℚ)) * 100))

/-- The zip-generation phase reports: `Math.round(metadata.percent)` for
the percent values `ps` that JSZip reports during `generateAsync`. -/
def zipGenTrace (ps : List ℚ) : List ℤ := ps.map jsRound

/-- The full sequence of values `downloadAllAsZip` hands to
`setDownloadProgress`: the initial `0`, the file-adding phase, then the
zip-generation phase. -/
def zipTrace (n : ℕ) (ps : List ℚ) : List ℤ :=
  [0] ++ zipAddTrace n ++ zipGenTrace ps

/-- A fixed A4-portrait geometry (margin 10 mm, title band 20 mm) used
for concrete scenarios. -/
def a4Geometry : PageGeometry := ⟨10, 20, 210, 297⟩

/-! ## Helper lemmas -/

theorem jsRound_eq (q : ℚ) : jsRound q = ⌊q + 1/2⌋ := rfl

theorem formatProgress_eq (n k : ℕ) :
    formatProgress n k = ⌊(60 : ℚ) + ((k : ℚ) / (n : ℚ)) * 40⌋ := rfl

theorem jsRound_intCast (z : ℤ) : jsRound (z : ℚ) = z := by
  rw [jsRound_eq, Int.floor_int_add]
  norm_num

theorem jsRound_natCast (n : ℕ) : jsRound (n : ℚ) = n := by
  have h : ((n : ℚ)) = ((n : ℤ) : ℚ) := by push_cast; ring
  rw [h, jsRound_intCast]

theorem jsRound_mono {a b : ℚ} (h : a ≤ b) : jsRound a ≤ jsRound b := by
  rw [jsRound_eq, jsRound_eq]
  exact Int.floor_le_floor (by linarith)

theorem formatProgress_ge (n k : ℕ) : 60 ≤ formatProgress n k := by
  rw [formatProgress_eq]
  have h : (60 : ℚ) ≤ 60 + ((k : ℚ) / (n : ℚ)) * 40 := by
    have hnn : (0 : ℚ) ≤ ((k : ℚ) / (n : ℚ)) * 40 := by positivity
    linarith
  calc (60 : ℤ) = ⌊(60 : ℚ)⌋ := by norm_num
    _ ≤ ⌊(60 : ℚ) + ((k : ℚ) / (n : ℚ)) * 40⌋ := Int.floor_le_floor h

theorem formatProgress_le100 (n k : ℕ) (h : k ≤ n) : formatProgress n k ≤ 100 := by
  rw [formatProgress_eq]
  have hq : (60 : ℚ) + ((k : ℚ) / (n : ℚ)) * 40 ≤ 100 := by
    rcases Nat.eq_zero_or_pos n with h0 | h0
    · subst h0; norm_num
    · have hn : (0 : ℚ) < (n : ℚ) := by exact_mod_cast h0
      have hdiv : (k : ℚ) / (n : ℚ) ≤ 1 := by
        rw [div_le_one hn]; exact_mod_cast h
      nlinarith
  calc ⌊(60 : ℚ) + ((k : ℚ) / (n : ℚ)) * 40⌋ ≤ ⌊(100 : ℚ)⌋ := Int.floor_le_floor hq
    _ = 100 := by norm_num

theorem formatProgress_mono (n : ℕ) {k l : ℕ} (h : k ≤ l) :
    formatProgress n k ≤ formatProgress n l := by
  rw [formatProgress_eq, formatProgress_eq]
  apply Int.floor_le_floor
  have hdiv : (k : ℚ) / (n : ℚ) ≤ (l : ℚ) / (n : ℚ) := by
    rcases Nat.eq_zero_or_pos n with h0 | h0
    · subst h0; norm_num
    · have hn : (0 : ℚ) < (n : ℚ) := by exact_mod_cast h0
      exact (div_le_div_iff_of_pos_right hn).mpr (by exact_mod_cast h)
  nlinarith

theorem pairwise_le_append_of_bound {l₁ l₂ : List ℤ} (b : ℤ)
    (h₁ : l₁.Pairwise (· ≤ ·)) (h₂ : l₂.Pairwise (· ≤ ·))
    (hb₁ : ∀ a ∈ l₁, a ≤ b) (hb₂ : ∀ a ∈ l₂, b ≤ a) :
    (l₁ ++ l₂).Pairwise (· ≤ ·) :=
  List.pairwise_append.mpr ⟨h₁, h₂, fun x hx y hy => (hb₁ x hx).trans (hb₂ y hy)⟩

theorem generatePDFRun_succ (g : PageGeometry) (rows cols m : ℕ) :
    generatePDFRun g rows cols (m + 1)
      = generatePDFStep g rows cols (generatePDFRun g rows cols m) m := by
  unfold generatePDFRun
  rw [List.range_succ, List.foldl_append]
  rfl

theorem generatePDFRun_placements (g : PageGeometry) (rows cols n : ℕ) :
    (generatePDFRun g rows cols n).placements
      = (List.range n).map (placementFormula g rows cols) := by
  induction n with
  | zero => rfl
  | succ m ih =>
      rw [generatePDFRun_succ, List.range_succ, List.map_append]
      simp only [generatePDFStep, ih, List.map_cons, List.map_nil]
      rfl

theorem generatePDFRun_pages (g : PageGeometry) (rows cols n : ℕ) (hn : 1 ≤ n) :
    (generatePDFRun g rows cols n).pages = (n - 1) / (rows * cols) + 1 := by
  induction n with
  | zero => omega
  | succ m ih =>
      rcases Nat.eq_zero_or_pos m with hm | hm
      · subst hm
        simp [generatePDFRun, generatePDFStep, List.range_succ]
      · have key : m / (rows * cols)
            = (m - 1) / (rows * cols) + if (rows * cols) ∣ m then 1 else 0 := by
          conv_lhs => rw [show m = (m - 1) + 1 by omega]
          rw [Nat.succ_div, show (m - 1) + 1 = m by omega]
        rw [generatePDFRun_succ]
        simp only [generatePDFStep]
        rw [ih hm]
        by_cases hdvd : m % (rows * cols) = 0
        · rw [if_pos ⟨hdvd, hm⟩, Nat.succ_sub_one, key,
            if_pos (Nat.dvd_of_mod_eq_zero hdvd)]
        · have hnd : ¬ (rows * cols) ∣ m :=
            fun hd => hdvd ((Nat.dvd_iff_mod_eq_zero).mp hd)
          rw [if_neg (by tauto), Nat.succ_sub_one, key, if_neg hnd]

/-! ## Claim theorems -/

/-- C1: the claim says the Dimension Resolver never emits 0 (a computed
axis that would round to 0 is clamped to 1 or replaced by the source
dimension).  The code has no such clamp: for the 1×1 source with
`Percentage{scale = 1}` (both reachable from the UI — the percentage
slider allows 1) both axes are `Math.round(1 * 1 / 100) = 0`, so the
resolver emits `{0, 0}`. -/
theorem resolver_emits_zero_at_tiny_percentage :
    calculateTargetDimensions 1 1 .percentage ⟨800, 600⟩ 1 .medium true = (0, 0) ∧
    ¬ (0 < (calculateTargetDimensions 1 1 .percentage ⟨800, 600⟩ 1 .medium true).1 ∧
       0 < (calculateTargetDimensions 1 1 .percentage ⟨800, 600⟩ 1 .medium true).2) := by
  constructor
  · norm_num [calculateTargetDimensions, jsRound_eq]
  · norm_num [calculateTargetDimensions, jsRound_eq]

/-- C4: fit-inside invariant.  For `Explicit{W, H, lockAspect = true}`
with a positive source, the resolved dimensions never overflow either
bound, and the constraining axis meets its bound exactly. -/
theorem explicit_lock_fit_inside :
    ∀ (w h W H : ℕ) (pct : ℚ) (ps : PresetSize), 0 < w → 0 < h → 0 < W → 0 < H →
      (calculateTargetDimensions w h .dimensions ⟨W, H⟩ pct ps true).1 ≤ (W : ℤ) ∧
      (calculateTargetDimensions w h .dimensions ⟨W, H⟩ pct ps true).2 ≤ (H : ℤ) ∧
      ((calculateTargetDimensions w h .dimensions ⟨W, H⟩ pct ps true).1 = (W : ℤ) ∨
       (calculateTargetDimensions w h .dimensions ⟨W, H⟩ pct ps true).2 = (H : ℤ)) := by
  intro w h W H pct ps hw hh hW hH
  have hwq : (0 : ℚ) < (w : ℚ) := by exact_mod_cast hw
  have hhq : (0 : ℚ) < (h : ℚ) := by exact_mod_cast hh
  have hcalc : calculateTargetDimensions w h .dimensions ⟨W, H⟩ pct ps true
      = (jsRound ((w : ℚ) * min ((W : ℚ) / (w : ℚ)) ((H : ℚ) / (h : ℚ))),
         jsRound ((h : ℚ) * min ((W : ℚ) / (w : ℚ)) ((H : ℚ) / (h : ℚ)))) := by
    simp [calculateTargetDimensions, hW.ne', hH.ne']
  rw [hcalc]
  have hWW : (w : ℚ) * ((W : ℚ) / (w : ℚ)) = (W : ℚ) := by field_simp
  have hHH : (h : ℚ) * ((H : ℚ) / (h : ℚ)) = (H : ℚ) := by field_simp
  rcases le_total ((W : ℚ) / (w : ℚ)) ((H : ℚ) / (h : ℚ)) with hle | hle
  · rw [min_eq_left hle]
    have h1 : jsRound ((w : ℚ) * ((W : ℚ) / (w : ℚ))) = (W : ℤ) := by
      rw [hWW, jsRound_natCast]
    have h2 : jsRound ((h : ℚ) * ((W : ℚ) / (w : ℚ))) ≤ (H : ℤ) := by
      have hm : (h : ℚ) * ((W : ℚ) / (w : ℚ)) ≤ (h : ℚ) * ((H : ℚ) / (h : ℚ)) :=
        mul_le_mul_of_nonneg_left hle (by positivity)
      calc jsRound ((h : ℚ) * ((W : ℚ) / (w : ℚ)))
          ≤ jsRound ((h : ℚ) * ((H : ℚ) / (h : ℚ))) := jsRound_mono hm
        _ = (H : ℤ) := by rw [hHH, jsRound_natCast]
    exact ⟨le_of_eq h1, h2, Or.inl h1⟩
  · rw [min_eq_right hle]
    have h1 : jsRound ((h : ℚ) * ((H : ℚ) / (h : ℚ))) = (H : ℤ) := by
      rw [hHH, jsRound_natCast]
    have h2 : jsRound ((w : ℚ) * ((H : ℚ) / (h : ℚ))) ≤ (W : ℤ) := by
      have hm : (w : ℚ) * ((H : ℚ) / (h : ℚ)) ≤ (w : ℚ) * ((W : ℚ) / (w : ℚ)) :=
        mul_le_mul_of_nonneg_left hle (by positivity)
      calc jsRound ((w : ℚ) * ((H : ℚ) / (h : ℚ)))
          ≤ jsRound ((w : ℚ) * ((W : ℚ) / (w : ℚ))) := jsRound_mono hm
        _ = (W : ℤ) := by rw [hWW, jsRound_natCast]
    exact ⟨h2, le_of_eq h1, Or.inr h1⟩

theorem explicit_lock_fit_inside_witness :
    (calculateTargetDimensions 1000 400 .dimensions ⟨500, 300⟩ 50 .medium true).1 ≤ ((500 : ℕ) : ℤ) ∧
    (calculateTargetDimensions 1000 400 .dimensions ⟨500, 300⟩ 50 .medium true).2 ≤ ((300 : ℕ) : ℤ) ∧
    ((calculateTargetDimensions 1000 400 .dimensions ⟨500, 300⟩ 50 .medium true).1 = ((500 : ℕ) : ℤ) ∨
     (calculateTargetDimensions 1000 400 .dimensions ⟨500, 300⟩ 50 .medium true).2 = ((300 : ℕ) : ℤ)) :=
  explicit_lock_fit_inside 1000 400 500 300 50 .medium
    (by decide) (by decide) (by decide) (by decide)

/-- C7: for `Explicit` with only `targetWidth = W` supplied and
`lockAspect = true`, the width is exactly `W` and the height is
`round(h * W / w)`; symmetrically when only `targetHeight` is
supplied. -/
theorem explicit_lock_single_axis :
    ∀ (w h W H : ℕ) (pct : ℚ) (ps : PresetSize), 0 < w → 0 < h →
      (0 < W → calculateTargetDimensions w h .dimensions ⟨W, 0⟩ pct ps true
          = ((W : ℤ), jsRound ((h : ℚ) * (W : ℚ) / (w : ℚ))))
      ∧ (0 < H → calculateTargetDimensions w h .dimensions ⟨0, H⟩ pct ps true
          = (jsRound ((w : ℚ) * (H : ℚ) / (h : ℚ)), (H : ℤ))) := by
  intro w h W H pct ps hw hh
  constructor
  · intro hW
    simp [calculateTargetDimensions, hW.ne']
    rw [div_mul_eq_mul_div]
  · intro hH
    simp [calculateTargetDimensions, hH.ne']
    rw [div_mul_eq_mul_div]

theorem explicit_lock_single_axis_witness :
    calculateTargetDimensions 1000 500 .dimensions ⟨800, 0⟩ 50 .medium true
      = (((800 : ℕ) : ℤ), jsRound (((500 : ℕ) : ℚ) * ((800 : ℕ) : ℚ) / ((1000 : ℕ) : ℚ))) :=
  (explicit_lock_single_axis 1000 500 800 0 50 .medium (by decide) (by decide)).1 (by decide)

/-- C8: the `Percentage` policy computes
`round(source * scale / 100)` on each axis independently; in particular
the 1000×500 source at 50 % resolves to 500×250. -/
theorem percentage_resolution :
    (∀ (w h : ℕ) (rd : ResizeDimensions) (pct : ℚ) (ps : PresetSize) (aspect : Bool),
      0 < w → 0 < h →
      calculateTargetDimensions w h .percentage rd pct ps aspect
        = (jsRound ((w : ℚ) * pct / 100), jsRound ((h : ℚ) * pct / 100)))
    ∧ calculateTargetDimensions 1000 500 .percentage ⟨800, 600⟩ 50 .medium true = (500, 250) := by
  constructor
  · intro w h rd pct ps aspect _ _
    rfl
  · norm_num [calculateTargetDimensions, jsRound_eq]

theorem percentage_resolution_witness :
    calculateTargetDimensions 1000 500 .percentage ⟨800, 600⟩ 50 .medium true
      = (jsRound (((1000 : ℕ) : ℚ) * 50 / 100), jsRound (((500 : ℕ) : ℚ) * 50 / 100)) :=
  percentage_resolution.1 1000 500 ⟨800, 600⟩ 50 .medium true (by decide) (by decide)

/-- C9: in `Explicit` mode with `lockAspect = false`, a missing (zero)
target axis falls back to the source axis and a given axis is used
as-is. -/
theorem explicit_unlocked_substitution :
    ∀ (w h W H : ℕ) (pct : ℚ) (ps : PresetSize),
      (0 < W → calculateTargetDimensions w h .dimensions ⟨W, 0⟩ pct ps false = ((W : ℤ), (h : ℤ)))
      ∧ (0 < H → calculateTargetDimensions w h .dimensions ⟨0, H⟩ pct ps false = ((w : ℤ), (H : ℤ)))
      ∧ calculateTargetDimensions w h .dimensions ⟨0, 0⟩ pct ps false = ((w : ℤ), (h : ℤ)) := by
  intro w h W H pct ps
  refine ⟨fun hW => ?_, fun hH => ?_, ?_⟩
  · simp [calculateTargetDimensions, hW.ne']
  · simp [calculateTargetDimensions, hH.ne']
  · simp [calculateTargetDimensions]

theorem explicit_unlocked_substitution_witness :
    calculateTargetDimensions 800 600 .dimensions ⟨1024, 0⟩ 50 .medium false
      = (((1024 : ℕ) : ℤ), ((600 : ℕ) : ℤ)) ∧
    calculateTargetDimensions 800 600 .dimensions ⟨0, 768⟩ 50 .medium false
      = (((800 : ℕ) : ℤ), ((768 : ℕ) : ℤ)) :=
  ⟨(explicit_unlocked_substitution 800 600 1024 768 50 .medium).1 (by decide),
   (explicit_unlocked_substitution 800 600 1024 768 50 .medium).2.1 (by decide)⟩

/-- C2 fails on the code: the `[1, 5]` bound exists only as HTML
`min`/`max` attributes on the number inputs, which do not constrain
typed values.  The `onChange` handler maps a parsed `-3` to `-3` (only
`0`/`NaN` are falsy and replaced by `1`), and `generatePDF` uses it
unclamped, giving `itemsPerPage = -3 * 2 = -6 < 1`. -/
theorem custom_grid_clamp_counterexample :
    customDimFromInput (some (-3)) = -3 ∧
    resolveLayout .custom (customDimFromInput (some (-3))) (customDimFromInput (some 2))
      = (-3, 2) ∧
    ¬ (1 ≤ (resolveLayout .custom (customDimFromInput (some (-3)))
              (customDimFromInput (some 2))).1) ∧
    (resolveLayout .custom (customDimFromInput (some (-3)))
        (customDimFromInput (some 2))).1 *
      (resolveLayout .custom (customDimFromInput (some (-3)))
        (customDimFromInput (some 2))).2 < 1 := by
  refine ⟨rfl, rfl, by decide, by decide⟩

/-- C2 amended: the only defence the code provides is JavaScript
falsiness in `Number.parseInt(e.target.value) || 1`: a grid dimension
that parses to `0` or fails to parse (`NaN`) is replaced by `1`; every
other parsed integer — negative or above 5 included — is passed through
to the layout unclamped, so the resolved custom `(rows, cols)` are never
zero (hence `itemsPerPage = rows * cols` is never zero) but need not lie
in `[1, 5]`. -/
theorem custom_grid_resolution_amended :
    ∀ (vr vc : Option ℤ),
      customDimFromInput vr ≠ 0 ∧
      customDimFromInput vc ≠ 0 ∧
      resolveLayout .custom (customDimFromInput vr) (customDimFromInput vc)
        = (customDimFromInput vr, customDimFromInput vc) ∧
      customDimFromInput vr * customDimFromInput vc ≠ 0 ∧
      customDimFromInput (some 0) = 1 ∧ customDimFromInput Option.none = 1 := by
  intro vr vc
  have hne : ∀ v : Option ℤ, customDimFromInput v ≠ 0 := by
    intro v
    match v with
    | Option.none => simp [customDimFromInput]
    | Option.some n =>
        by_cases hn : n = 0 <;> simp [customDimFromInput, hn]
  exact ⟨hne vr, hne vc, rfl, mul_ne_zero (hne vr) (hne vc), rfl, rfl⟩

/-- C10: the name handed to `pdf.save` never contains a character of the
invalid set, a blank filename falls back to `photo-collection.pdf`, and
otherwise the saved name is the sanitized trimmed input with `.pdf`
appended. -/
theorem pdf_save_filename_sanitized :
    ∀ s : String,
      (∀ c ∈ (pdfSaveName s).data, c ∉ invalidFilenameChars) ∧
      (jsTrim s = "" → pdfSaveName s = "photo-collection.pdf") ∧
      (jsTrim s ≠ "" → pdfSaveName s = sanitizeFilename (jsTrim s) ++ ".pdf") := by
  intro s
  refine ⟨?_, fun he => by simp [pdfSaveName, he], fun hne => by simp [pdfSaveName, hne]⟩
  intro c hc
  by_cases he : jsTrim s = ""
  · rw [pdfSaveName, if_pos he] at hc
    exact (by decide : ∀ a ∈ ("photo-collection" ++ ".pdf").data, a ∉ invalidFilenameChars) c hc
  · rw [pdfSaveName, if_neg he] at hc
    rw [String.data_append] at hc
    rcases List.mem_append.mp hc with hmem | hmem
    · rcases List.mem_map.mp hmem with ⟨a, _, ha⟩
      rw [← ha]
      unfold sanitizeChar
      by_cases hinv : a ∈ invalidFilenameChars
      · rw [if_pos hinv]; decide
      · rw [if_neg hinv]; exact hinv
    · exact (by decide : ∀ a ∈ ".pdf".data, a ∉ invalidFilenameChars) c hmem

theorem pdf_save_filename_sanitized_witness :
    (∀ c ∈ (pdfSaveName " my:file ").data, c ∉ invalidFilenameChars) ∧
    pdfSaveName " my:file " = sanitizeFilename (jsTrim " my:file ") ++ ".pdf" :=
  ⟨(pdf_save_filename_sanitized " my:file ").1,
   (pdf_save_filename_sanitized " my:file ").2.2 (by decide)⟩

/-- C5: every entry `i` of the placement plan carries exactly the
spec's formulas — `pageIndex = ⌊i / itemsPerPage⌋`,
`row = ⌊(i mod itemsPerPage) / cols⌋`, `col = (i mod itemsPerPage) mod
cols`, `x = margin + col·boxWidth`,
`y = margin + titleReservedHeight + row·boxHeight` — as recorded in
`placementFormula`. -/
theorem placement_plan_formulas :
    ∀ (g : PageGeometry) (rows cols n : ℕ), 1 ≤ rows * cols →
      ∀ i, i < n →
        ((generatePDFRun g rows cols n).placements)[i]?
          = some (placementFormula g rows cols i) := by
  intro g rows cols n _ i hi
  rw [generatePDFRun_placements, List.getElem?_map,
    List.getElem?_eq_getElem (by simpa using hi)]
  simp

theorem placement_plan_formulas_witness :
    ((generatePDFRun a4Geometry 2 2 5).placements)[4]?
      = some (placementFormula a4Geometry 2 2 4) :=
  placement_plan_formulas a4Geometry 2 2 5 (by decide) 4 (by decide)

/-- C6: for at least one item and a non-degenerate grid, the number of
pages jsPDF ends with (one initial page plus one `addPage` per page
break) is exactly `⌈itemCount / itemsPerPage⌉`, and every page receives
at least one item; the `itemCount = 5`, `Fixed{4}` scenario yields 2
pages, 4 items on page 0 (rows 0–1 × cols 0–1) and the last item on
page 1 at row 0, col 0. -/
theorem page_count_and_nonempty_pages :
    (∀ (g : PageGeometry) (rows cols n : ℕ), 1 ≤ n → 1 ≤ rows * cols →
      (generatePDFRun g rows cols n).pages = (n + (rows * cols) - 1) / (rows * cols) ∧
      ∀ p, p < (generatePDFRun g rows cols n).pages →
        ∃ e ∈ (generatePDFRun g rows cols n).placements, e.pageIndex = p)
    ∧ resolveLayout .four 0 0 = (2, 2)
    ∧ (generatePDFRun a4Geometry 2 2 5).pages = 2
    ∧ ((generatePDFRun a4Geometry 2 2 5).placements.map
        (fun e => (e.itemIndex, e.pageIndex, e.row, e.col)))
      = [(0, 0, 0, 0), (1, 0, 0, 1), (2, 0, 1, 0), (3, 0, 1, 1), (4, 1, 0, 0)] := by
  have hceil : ∀ (g : PageGeometry) (rows cols n : ℕ), 1 ≤ n → 1 ≤ rows * cols →
      (generatePDFRun g rows cols n).pages = (n + (rows * cols) - 1) / (rows * cols) := by
    intro g rows cols n hn hpp
    rw [generatePDFRun_pages g rows cols n hn,
      show n + (rows * cols) - 1 = (n - 1) + (rows * cols) by omega,
      Nat.add_div_right _ hpp]
  refine ⟨fun g rows cols n hn hpp => ⟨hceil g rows cols n hn hpp, ?_⟩, rfl, ?_, ?_⟩
  · intro p hp
    rw [generatePDFRun_pages g rows cols n hn] at hp
    have hple : p ≤ (n - 1) / (rows * cols) := by omega
    have hmul : p * (rows * cols) ≤ n - 1 := (Nat.le_div_iff_mul_le hpp).mp hple
    have hilt : p * (rows * cols) < n := by omega
    refine ⟨placementFormula g rows cols (p * (rows * cols)), ?_, ?_⟩
    · rw [generatePDFRun_placements]
      exact List.mem_map_of_mem _ (List.mem_range.mpr hilt)
    · show p * (rows * cols) / (rows * cols) = p
      exact Nat.mul_div_cancel p hpp
  · rw [generatePDFRun_pages a4Geometry 2 2 5 (by decide)]
  · rw [generatePDFRun_placements]
    simp [placementFormula, List.range_succ]

theorem page_count_and_nonempty_pages_witness :
    (generatePDFRun a4Geometry 2 2 5).pages = (5 + (2 * 2) - 1) / (2 * 2) ∧
    ∀ p, p < (generatePDFRun a4Geometry 2 2 5).pages →
      ∃ e ∈ (generatePDFRun a4Geometry 2 2 5).placements, e.pageIndex = p :=
  page_count_and_nonempty_pages.1 a4Geometry 2 2 5 (by decide) (by decide)

/-- C3 fails on the code for ZIP assembly: `downloadAllAsZip` drives the
progress value to `Math.round((n / n) * 100) = 100` when the last file
has been added to the archive, and then forwards JSZip's
`metadata.percent` during `generateAsync`, which restarts below 100
(here: a single file, with JSZip reporting 50 % first), so the delivered
sequence `[0, 100, 50]` decreases. -/
theorem zip_progress_not_monotone :
    ¬ (zipTrace 1 [50]).Pairwise (· ≤ ·) := by
  have h1 : jsRound ((((0 : ℕ) : ℚ) + 1) / ((1 : ℕ) : ℚ) * 100) = 100 := by
    rw [jsRound_eq]; norm_num
  have h2 : jsRound ((50 : ℚ)) = 50 := by
    rw [jsRound_eq]; norm_num
  have h : zipTrace 1 [50] = [0, 100, 50] := by
    rw [zipTrace, zipAddTrace, zipGenTrace, List.range_succ]
    simp only [List.range_zero, List.nil_append, List.map_cons, List.map_nil]
    rw [h1, h2]
    rfl
  rw [h]
  decide

/-- C3 amended: progress is monotonically non-decreasing within each
reporting phase — the whole of `processImageInBrowser` for one image
(any HEIC path, any number of formats), the file-adding phase of
`downloadAllAsZip` (including its initial `0`), and the zip-generation
phase whenever JSZip's own percent sequence is non-decreasing — but not
across the join of the last two, where the trace falls back from 100 to
JSZip's current percent. -/
theorem progress_monotone_per_phase :
    ∀ (isHeic : Bool) (hs n m : ℕ) (ps : List ℚ), ps.Pairwise (· ≤ ·) →
      (processTrace isHeic hs n).Pairwise (· ≤ ·) ∧
      ([(0 : ℤ)] ++ zipAddTrace m).Pairwise (· ≤ ·) ∧
      (zipGenTrace ps).Pairwise (· ≤ ·) := by
  intro isHeic hs n m ps hps
  refine ⟨?_, ?_, hps.map _ (fun a b hab => jsRound_mono hab)⟩
  · unfold processTrace
    simp only [List.append_assoc]
    have hmap_pw : ((List.range n).map (fun k => formatProgress n (k + 1))).Pairwise
        (· ≤ (· : ℤ)) := by
      rw [List.pairwise_map]
      exact (List.pairwise_lt_range n).imp
        (fun hab => formatProgress_mono n (by omega))
    have hmap_ge : ∀ a ∈ (List.range n).map (fun k => formatProgress n (k + 1)),
        (60 : ℤ) ≤ a := by
      intro a ha
      rcases List.mem_map.mp ha with ⟨k, _, rfl⟩
      exact formatProgress_ge n (k + 1)
    have hmap_le : ∀ a ∈ (List.range n).map (fun k => formatProgress n (k + 1)),
        a ≤ (100 : ℤ) := by
      intro a ha
      rcases List.mem_map.mp ha with ⟨k, hk, rfl⟩
      exact formatProgress_le100 n (k + 1) (List.mem_range.mp hk)
    have hB : (((List.range n).map (fun k => formatProgress n (k + 1))) ++ [100]).Pairwise
        (· ≤ (· : ℤ)) := by
      refine pairwise_le_append_of_bound 100 hmap_pw (by simp) hmap_le ?_
      intro a ha
      simp only [List.mem_singleton] at ha
      omega
    have hT2 : (([40, 50, 60] : List ℤ)
        ++ (((List.range n).map (fun k => formatProgress n (k + 1))) ++ [100])).Pairwise
        (· ≤ ·) := by
      refine pairwise_le_append_of_bound 60 (by decide) hB (by decide) ?_
      intro a ha
      rcases List.mem_append.mp ha with hmem | hmem
      · exact hmap_ge a hmem
      · simp only [List.mem_singleton] at hmem
        omega
    have hT2mem : ∀ a ∈ (([40, 50, 60] : List ℤ)
        ++ (((List.range n).map (fun k => formatProgress n (k + 1))) ++ [100])),
        (40 : ℤ) ≤ a := by
      intro a ha
      rcases List.mem_append.mp ha with hmem | hmem
      · revert hmem
        exact (by decide : ∀ x ∈ ([40, 50, 60] : List ℤ), (40 : ℤ) ≤ x) a
      · rcases List.mem_append.mp hmem with hmem2 | hmem2
        · exact le_trans (by omega) (hmap_ge a hmem2)
        · simp only [List.mem_singleton] at hmem2
          omega
    set seg : List ℤ := if isHeic then ([10, 20, 30] : List ℤ).take (hs + 1) else [30] with hseg
    have hseg_sub : ∀ a ∈ seg, a ∈ ([10, 20, 30] : List ℤ) := by
      intro a ha
      rw [hseg] at ha
      by_cases hb : isHeic
      · rw [if_pos hb] at ha
        exact List.mem_of_mem_take ha
      · rw [if_neg hb] at ha
        simp only [List.mem_singleton] at ha
        simp [ha]
    have hseg_pw : seg.Pairwise (· ≤ (· : ℤ)) := by
      rw [hseg]
      by_cases hb : isHeic
      · rw [if_pos hb]
        exact (by decide : ([10, 20, 30] : List ℤ).Pairwise (· ≤ ·)).sublist
          (List.take_sublist _ _)
      · rw [if_neg hb]
        decide
    have hT1 : (seg ++ (([40, 50, 60] : List ℤ)
        ++ (((List.range n).map (fun k => formatProgress n (k + 1))) ++ [100]))).Pairwise
        (· ≤ ·) := by
      refine pairwise_le_append_of_bound 40 hseg_pw hT2 ?_ hT2mem
      intro a ha
      exact (by decide : ∀ x ∈ ([10, 20, 30] : List ℤ), x ≤ (40 : ℤ)) a (hseg_sub a ha)
    refine pairwise_le_append_of_bound 10 (by decide) hT1 (by decide) ?_
    intro a ha
    rcases List.mem_append.mp ha with hmem | hmem
    · exact (by decide : ∀ x ∈ ([10, 20, 30] : List ℤ), (10 : ℤ) ≤ x) a (hseg_sub a hmem)
    · exact le_trans (by omega) (hT2mem a hmem)
  · have hadd_pw : (zipAddTrace m).Pairwise (· ≤ (· : ℤ)) := by
      rw [zipAddTrace, List.pairwise_map]
      refine (List.pairwise_lt_range m).imp ?_
      intro a b hab
      apply jsRound_mono
      rcases Nat.eq_zero_or_pos m with h0 | h0
      · subst h0
        norm_num
      · have hm : (0 : ℚ) < (m : ℚ) := by exact_mod_cast h0
        have hq : ((a : ℚ) + 1) / (m : ℚ) ≤ ((b : ℚ) + 1) / (m : ℚ) :=
          (div_le_div_iff_of_pos_right hm).mpr
            (by have : (a : ℚ) ≤ (b : ℚ) := by exact_mod_cast hab.le
                linarith)
        nlinarith [hq]
    refine pairwise_le_append_of_bound 0 (by decide) hadd_pw (by decide) ?_
    intro a ha
    rw [zipAddTrace] at ha
    rcases List.mem_map.mp ha with ⟨k, _, rfl⟩
    have hnn : (0 : ℚ) ≤ (((k : ℚ) + 1) / (m : ℚ)) * 100 :=
      mul_nonneg (div_nonneg (by positivity) (by positivity)) (by norm_num)
    calc (0 : ℤ) = jsRound ((0 : ℚ)) := by rw [jsRound_eq]; norm_num
      _ ≤ jsRound ((((k : ℚ) + 1) / (m : ℚ)) * 100) := jsRound_mono hnn

theorem progress_monotone_per_phase_witness :
    (processTrace true 1 2).Pairwise (· ≤ ·) ∧
    ([(0 : ℤ)] ++ zipAddTrace 3).Pairwise (· ≤ ·) ∧
    (zipGenTrace []).Pairwise (· ≤ ·) :=
  progress_monotone_per_phase true 1 2 3 [] (by decide)
